import Mathlib

set_option maxHeartbeats 1000000

/-!
Shallow embedding of the primatex `px run` pipeline: the output classifier
(`findMissingPackages`), the tailwind special-case detector
(`needsTailwindSetup`), the project inspector (`findProjectRoot`,
`detectManager`), the installer (`installPackages`), the child-process
runner's stream-drain loops (`runPrimate` modelled as `stepOut`/`stepErr`
over explicit interleaving schedules), and the retry orchestrator
(`runCommand` modelled as `runFrom`), translated from
`bin/utils/project.ts`, `bin/utils/packages.ts`, `bin/utils/primate.ts`
and `bin/commands/run.ts`.
-/

/- ASCII lower-casing; mirrors the regex `i` flag on the ASCII literals
   the source patterns use. -/
def lowerChar (c : Char) : Char :=
  if 65 ≤ c.toNat && c.toNat ≤ 90 then Char.ofNat (c.toNat + 32) else c

def charCI (a b : Char) : Bool := lowerChar a == lowerChar b

/- JS `\s` restricted to the ASCII range (the only whitespace the wrapped
   tool's diagnostics contain). -/
def isSpaceChar (c : Char) : Bool :=
  c == ' ' || c == '\t' || c == '\n' || c == '\r' || c == '\x0b' || c == '\x0c'

def squote : Char := Char.ofNat 39

def isQuote (c : Char) : Bool := c == '"' || c == squote

/- Case-insensitive literal match; on success returns the rest of the input. -/
def matchCI : List Char → List Char → Option (List Char)
  | [], cs => some cs
  | _ :: _, [] => none
  | p :: ps, c :: cs => if charCI p c then matchCI ps cs else none

/- `\s+` followed by maximal munch; the next pattern element in every use
   site is a quote or a dot-class, never whitespace-compatible in a way
   that would need backtracking into the `\s+`. -/
def takeSpaces1 : List Char → Option (List Char)
  | [] => none
  | c :: cs => if isSpaceChar c then some (cs.dropWhile isSpaceChar) else none

/- `["']([^"']+)["']`: a quote, a nonempty run of non-quote characters
   (captured), and a closing quote (either kind, as in the source regex). -/
def captureQuoted : List Char → Option (List Char × List Char)
  | [] => none
  | q :: rest =>
    if isQuote q then
      match rest.takeWhile (fun c => !(isQuote c)), rest.dropWhile (fun c => !(isQuote c)) with
      | [], _ => none
      | _ :: _, [] => none
      | body, _ :: rest2 => some (body, rest2)
    else none

def crPhrase : List Char := "Could not resolve".data

def bracketTag : List Char := "[ERROR]".data

def colonTag : List Char := "ERROR:".data

def lowerColonTag : List Char := "error:".data

/- `/Could not resolve\s+["']([^"']+)["']/i` anchored at the head. -/
def matchBaseAt (cs : List Char) : Option (List Char × List Char) :=
  match matchCI crPhrase cs with
  | none => none
  | some r1 =>
    match takeSpaces1 r1 with
    | none => none
    | some r2 => captureQuoted r2

/- `/\[ERROR\]\s+Could not resolve\s+["']([^"']+)["']/i` at the head. -/
def matchBracketAt (cs : List Char) : Option (List Char × List Char) :=
  match matchCI bracketTag cs with
  | none => none
  | some r1 =>
    match takeSpaces1 r1 with
    | none => none
    | some r2 => matchBaseAt r2

/- `/ERROR:\s+Could not resolve\s+["']([^"']+)["']/i` at the head. -/
def matchColonAt (cs : List Char) : Option (List Char × List Char) :=
  match matchCI colonTag cs with
  | none => none
  | some r1 =>
    match takeSpaces1 r1 with
    | none => none
    | some r2 => matchBaseAt r2

/- JS `.` (no newline / carriage return / line or paragraph separator). -/
def dotChar (c : Char) : Bool :=
  !(c == '\n' || c == '\r' || c == '\u2028' || c == '\u2029')

/- Greedy `.*` followed by the base pattern: the deepest viable start
   inside the dot-run wins, as the backtracking engine would choose. -/
def greedyDotBase : List Char → Option (List Char × List Char)
  | [] => none
  | c :: cs =>
    if dotChar c then
      match greedyDotBase cs with
      | some r => some r
      | none => matchBaseAt (c :: cs)
    else matchBaseAt (c :: cs)

/- `/error:\s+.*Could not resolve\s+["']([^"']+)["']/i` at the head. -/
def matchErrorDotAt (cs : List Char) : Option (List Char × List Char) :=
  match matchCI lowerColonTag cs with
  | none => none
  | some r1 =>
    match takeSpaces1 r1 with
    | none => none
    | some r2 => greedyDotBase r2

/- The `while ((match = pattern.exec(combined)) !== null)` loop of a
   global regex: repeatedly find the leftmost match, collect its capture,
   resume after the match end. Fuel is the input length; every matcher
   consumes at least one character per match, so the fuel never runs out
   when initialised that way. -/
def scanAux (m : List Char → Option (List Char × List Char)) :
    Nat → List Char → List (List Char)
  | 0, _ => []
  | _ + 1, [] => []
  | fuel + 1, c :: cs =>
    match m (c :: cs) with
    | some (cap, rest) => cap :: scanAux m fuel rest
    | none => scanAux m fuel cs

def scanMatches (m : List Char → Option (List Char × List Char)) (s : String) :
    List String :=
  (scanAux m s.data.length s.data).map String.mk

/- JS `Set` insertion: keep first occurrence, drop duplicates. -/
def setInsert (xs : List String) (x : String) : List String :=
  if x ∈ xs then xs else xs ++ [x]

/- `findMissingPackages` from bin/utils/packages.ts: run the four patterns
   over `stdout + "\n" + stderr` and collect all captures into a set. -/
def findMissingPackages (stdout stderr : String) : List String :=
  let combined := stdout ++ "\n" ++ stderr
  let caps :=
    scanMatches matchBaseAt combined ++
    scanMatches matchBracketAt combined ++
    scanMatches matchColonAt combined ++
    scanMatches matchErrorDotAt combined
  caps.foldl setInsert []

/- `/Cannot find module\s+['"]@primate\/tailwind['"]/i` tested at the head. -/
def matchTailwindAt (cs : List Char) : Bool :=
  match matchCI "Cannot find module".data cs with
  | none => false
  | some r1 =>
    match takeSpaces1 r1 with
    | none => false
    | some r2 =>
      match r2 with
      | [] => false
      | q :: r3 =>
        if isQuote q then
          match matchCI "@primate/tailwind".data r3 with
          | none => false
          | some [] => false
          | some (q2 :: _) => isQuote q2
        else false

/- `RegExp.test`: does the pattern match at some position? -/
def containsMatch (m : List Char → Bool) : List Char → Bool
  | [] => m []
  | c :: cs => m (c :: cs) || containsMatch m cs

/- `needsTailwindSetup` from bin/commands/run.ts. -/
def needsTailwindSetup (stdout stderr : String) : Bool :=
  containsMatch matchTailwindAt (stdout ++ "\n" ++ stderr).data

/- `/Could not resolve\s+["']/i` tested at the head: the early-kill check
   inside the runner's drain loops. -/
def matchKillAt (cs : List Char) : Bool :=
  match matchCI crPhrase cs with
  | none => false
  | some r1 =>
    match takeSpaces1 r1 with
    | none => false
    | some r2 =>
      match r2 with
      | [] => false
      | q :: _ => isQuote q

def fatalMatch (s : String) : Bool := containsMatch matchKillAt s.data

/- Package-manager identities, as in bin/utils/project.ts. -/
inductive Manager where
  | bun
  | pnpm
  | yarn
  | npm
deriving DecidableEq, Repr

def joinPath (dir name : String) : String := dir ++ "/" ++ name

/- `detectManager` from bin/utils/project.ts, over an abstract
   `existsSync` (the filesystem-state predicate on full paths). -/
def detectManager (fsExists : String → Bool) (projectRoot : String) : Manager :=
  if fsExists (joinPath projectRoot "bun.lockb") ||
     fsExists (joinPath projectRoot "bun.lock") then
    Manager.bun
  else if fsExists (joinPath projectRoot "pnpm-lock.yaml") then
    Manager.pnpm
  else if fsExists (joinPath projectRoot "yarn.lock") then
    Manager.yarn
  else if fsExists (joinPath projectRoot "package-lock.json") ||
          fsExists (joinPath projectRoot "npm-shrinkwrap.json") then
    Manager.npm
  else
    Manager.npm

/- A directory is its component list, leaf component first: `/a/b` is
   `["b", "a"]`, the filesystem root `/` is `[]`, and `dirname` is
   `List.tail`. -/

/- The `while (currentDir !== "/")` loop of `findProjectRoot` from
   bin/utils/project.ts; `hasManifest dir` stands for
   `existsSync(join(dir, "package.json"))`.  The `parent === currentDir`
   break of the source (a guard for degenerate non-absolute paths) is kept
   but can never fire on this path representation. -/
def findRootLoop (hasManifest : List String → Bool) (startDir : List String) :
    List String → List String
  | [] => startDir
  | c :: cs =>
    if hasManifest (c :: cs) then c :: cs
    else if cs = c :: cs then startDir
    else findRootLoop hasManifest startDir cs

def findProjectRoot (hasManifest : List String → Bool) (startDir : List String) :
    List String :=
  findRootLoop hasManifest startDir startDir

/- The proper ancestors of a directory (itself included, the filesystem
   root excluded), in the order the loop visits them. -/
def properChain : List String → List (List String)
  | [] => []
  | c :: cs => (c :: cs) :: properChain cs

/- All ancestors of a directory, the filesystem root included: what the
   spec sentence for the project inspector quantifies over. -/
def ancestorChain (dir : List String) : List (List String) :=
  properChain dir ++ [[]]

/- Modelled from the spec claim wording for the inspector: the first
   ancestor (inclusive) containing the manifest, else the start itself. -/
def findProjectRootClaimed (hasManifest : List String → Bool)
    (startDir : List String) : List String :=
  ((ancestorChain startDir).find? hasManifest).getD startDir

/- The add/install command table of `installPackages` from
   bin/utils/packages.ts. -/
def installCommand (manager : Manager) (isDev : Bool) (packages : List String) :
    List String :=
  match manager with
  | Manager.bun => "bun" :: "add" :: ((if isDev then ["-D"] else []) ++ packages)
  | Manager.pnpm => "pnpm" :: "add" :: ((if isDev then ["-D"] else []) ++ packages)
  | Manager.yarn => "yarn" :: "add" :: ((if isDev then ["-D"] else []) ++ packages)
  | Manager.npm => "npm" :: "install" :: ((if isDev then ["--save-dev"] else []) ++ packages)

/- What `installPackages` does after its subprocess finishes. -/
inductive InstallResult where
  | ok
  | fatal (exitStatus : Int) (printedOut : Option String) (printedErr : Option String)
deriving DecidableEq, Repr

/- `installPackages` from bin/utils/packages.ts, abstracting the spawned
   subprocess by its observed exit code and captured output.  The first
   component is the list of subprocess invocations it performs: by
   construction a single one, there is no internal retry loop. -/
def installPackages (manager : Manager) (isDev : Bool) (packages : List String)
    (procExit : Int) (procOut procErr : String) :
    List (List String) × InstallResult :=
  ([installCommand manager isDev packages],
   if procExit ≠ 0 then
     InstallResult.fatal 1
       (if procOut ≠ "" then some procOut else none)
       (if procErr ≠ "" then some procErr else none)
   else InstallResult.ok)

/- One attempt's environment, as the orchestrator observes it: the child
   process's buffered output and resulting exit code, the exit code the
   tailwind-branch `<manager> install` subprocess would report, and the
   exit code the ordinary `installPackages` subprocess would report. -/
structure AttemptOutput where
  stdout : String
  stderr : String
  code : Int
  fullInstallExit : Int
  installExit : Int

/- Observable actions of one `runCommand` invocation. -/
inductive Event where
  | running (attempt : Nat)
  | tailwindSetup
  | fullInstall (ok : Bool)
  | installCall (packages : List String)
  | exited (code : Int)
deriving DecidableEq, Repr

def MAX_ATTEMPTS : Nat := 5

/- The `for (let attempt = 1; attempt <= MAX_ATTEMPTS; attempt++)` loop of
   `runCommand` from bin/commands/run.ts, with `fuel = MAX_ATTEMPTS + 1 -
   attempt` remaining iterations; returns the event trace and the process
   exit status.  `continue` in the source jumps to the `attempt++` update,
   so both remediation branches re-enter at `attempt + 1`. -/
def runFrom (env : Nat → AttemptOutput) : Nat → Nat → List Event × Int
  | _, 0 => ([Event.exited 1], 1)
  | attempt, fuel + 1 =>
    let out := env attempt
    if needsTailwindSetup out.stdout out.stderr then
      let next := runFrom env (attempt + 1) fuel
      (Event.running attempt :: Event.tailwindSetup ::
        Event.fullInstall (out.fullInstallExit == 0) :: next.1, next.2)
    else
      let missing := findMissingPackages out.stdout out.stderr
      if missing.isEmpty then
        ([Event.running attempt, Event.exited out.code], out.code)
      else if attempt == MAX_ATTEMPTS then
        ([Event.running attempt, Event.exited 1], 1)
      else if out.installExit ≠ 0 then
        ([Event.running attempt, Event.installCall missing, Event.exited 1], 1)
      else
        let next := runFrom env (attempt + 1) fuel
        (Event.running attempt :: Event.installCall missing :: next.1, next.2)

def runCommand (env : Nat → AttemptOutput) : List Event × Int :=
  runFrom env 1 MAX_ATTEMPTS

/- The attempt numbers of the RUNNING cycles, in execution order. -/
def runningAttempts : List Event → List Nat
  | [] => []
  | Event.running n :: es => n :: runningAttempts es
  | _ :: es => runningAttempts es

/- How many times the ordinary Installer was invoked. -/
def installCount : List Event → Nat
  | [] => 0
  | Event.installCall _ :: es => installCount es + 1
  | _ :: es => installCount es

/- State of `runPrimate`'s two concurrent drain loops from
   bin/utils/primate.ts: the chunks each stream has yet to deliver, the
   two accumulation buffers, the shared `processKilled` flag, and whether
   each loop has finished (returned from its async function). -/
structure StreamState where
  pOut : List String
  pErr : List String
  bufOut : String
  bufErr : String
  killed : Bool
  doneOut : Bool
  doneErr : Bool

/- One iteration of the stdout drain loop: read a chunk (or `done`),
   append it to the buffer, and — when `checkForErrors` is armed and the
   process was not already killed — kill the process and break out of
   this loop if the chunk matches the fatal pattern. -/
def stepOut (checkForErrors : Bool) (s : StreamState) : StreamState :=
  if s.doneOut then s
  else
    match s.pOut with
    | [] => { s with doneOut := true }
    | c :: cs =>
      if checkForErrors && !s.killed && fatalMatch c then
        { s with bufOut := s.bufOut ++ c, pOut := cs, killed := true, doneOut := true }
      else
        { s with bufOut := s.bufOut ++ c, pOut := cs }

/- One iteration of the stderr drain loop. -/
def stepErr (checkForErrors : Bool) (s : StreamState) : StreamState :=
  if s.doneErr then s
  else
    match s.pErr with
    | [] => { s with doneErr := true }
    | c :: cs =>
      if checkForErrors && !s.killed && fatalMatch c then
        { s with bufErr := s.bufErr ++ c, pErr := cs, killed := true, doneErr := true }
      else
        { s with bufErr := s.bufErr ++ c, pErr := cs }

def initState (outChunks errChunks : List String) : StreamState :=
  ⟨outChunks, errChunks, "", "", false, false, false⟩

/- Run the two loops under an explicit interleaving: `true` schedules one
   iteration of the stdout loop, `false` one of the stderr loop.  The
   JavaScript event loop executes the chunk handlers atomically in some
   such order. -/
def runStreams (checkForErrors : Bool) (s : StreamState) : List Bool → StreamState
  | [] => s
  | w :: ws =>
    runStreams checkForErrors
      (if w then stepOut checkForErrors s else stepErr checkForErrors s) ws

/- What `runPrimate` returns to its caller. -/
structure RunResult where
  stdout : String
  stderr : String
  code : Int
  killed : Bool
deriving DecidableEq, Repr

/- `runPrimate` from bin/utils/primate.ts: `Promise.all` of the two drain
   loops, then `await proc.exited`, then
   `code = proc.exitCode ?? (processKilled ? 1 : 0)`.  `reported` is
   `proc.exitCode` (absent when the process was killed before reporting
   one).  The result exists only for schedules under which both drain
   loops have completed — the invocation does not return before that. -/
def runPrimate (checkForErrors : Bool) (outChunks errChunks : List String)
    (sched : List Bool) (reported : Option Int) : Option RunResult :=
  let s := runStreams checkForErrors (initState outChunks errChunks) sched
  if s.doneOut && s.doneErr then
    some ⟨s.bufOut, s.bufErr, reported.getD (if s.killed then 1 else 0), s.killed⟩
  else none

theorem setInsert_nodup (xs : List String) (x : String) (h : xs.Nodup) :
    (setInsert xs x).Nodup := by
  unfold setInsert
  split
  · exact h
  · next hx => simp [List.nodup_append, h, hx]

theorem foldl_setInsert_nodup (l : List String) :
    ∀ acc : List String, acc.Nodup → (l.foldl setInsert acc).Nodup := by
  induction l with
  | nil => intro acc h; exact h
  | cons x xs ih => intro acc h; exact ih _ (setInsert_nodup _ _ h)

theorem findMissingPackages_nodup (s1 s2 : String) :
    (findMissingPackages s1 s2).Nodup := by
  unfold findMissingPackages
  exact foldl_setInsert_nodup _ _ List.nodup_nil

/-- C3: the classifier extracts exactly the quoted package specifiers that
follow the `Could not resolve` diagnostic, with quotes stripped, scope
prefixes preserved unmodified, case-insensitive phrase matching and set
semantics: the two spec instances evaluate to exactly the expected sets,
repeated occurrences collapse, and the result never holds duplicates. -/
theorem c3_classifier_extraction :
    findMissingPackages
        "Could not resolve \"left-pad\"\nCould not resolve \x27@scope/pkg\x27" "" =
      ["left-pad", "@scope/pkg"] ∧
    findMissingPackages "[ERROR] COULD NOT RESOLVE \"foo\"" "" = ["foo"] ∧
    findMissingPackages "error: could not resolve \"foo\"" "" = ["foo"] ∧
    findMissingPackages "Could not resolve \"dup\" Could not resolve \"dup\"" "" =
      ["dup"] ∧
    ∀ s1 s2 : String, (findMissingPackages s1 s2).Nodup :=
  ⟨by decide, by decide, by decide, by decide, findMissingPackages_nodup⟩

theorem findRootLoop_eq (hm : List String → Bool) (start : List String) :
    ∀ dir, findRootLoop hm start dir = ((properChain dir).find? hm).getD start := by
  intro dir
  induction dir with
  | nil => simp [findRootLoop, properChain]
  | cons c cs ih =>
    have hne : ¬(cs = c :: cs) := fun h => List.cons_ne_self c cs h.symm
    rw [findRootLoop, properChain]
    cases h : hm (c :: cs) with
    | true => simp [List.find?, h]
    | false => simp [List.find?, h, hne, ih]

/-- C6 (amended): `findProjectRoot` walks upward from the starting
directory testing each level strictly below the filesystem root for the
manifest; it returns the first such ancestor (inclusive of the start)
containing it, and falls back to the starting directory otherwise — the
root itself is never tested, and the function is total (never fails). -/
theorem c6_project_root_walk (hm : List String → Bool) (start : List String) :
    findProjectRoot hm start = ((properChain start).find? hm).getD start :=
  findRootLoop_eq hm start start

def rootOnlyManifest : List String → Bool := fun d => d.isEmpty

/-- C6 counterexample: with the manifest present only at the filesystem
root, the first manifest-bearing ancestor of `/a` is the root, yet the
code falls back to `/a` — the root is never tested. -/
theorem c6_counterexample :
    rootOnlyManifest [] = true ∧
    findProjectRootClaimed rootOnlyManifest ["a"] = [] ∧
    findProjectRoot rootOnlyManifest ["a"] = ["a"] ∧
    (["a"] : List String) ≠ [] := by decide

/-- C7: package-manager identity depends only on which lockfiles exist, in
the precedence order bun.lockb/bun.lock, pnpm-lock.yaml, yarn.lock,
package-lock.json/npm-shrinkwrap.json, defaulting to npm; a root holding
only pnpm-lock.yaml yields pnpm, whose add-subcommand the Installer then
invokes with the package names. -/
theorem c7_manager_detection :
    (∀ (fs : String → Bool) (root : String),
      (fs (joinPath root "bun.lockb") || fs (joinPath root "bun.lock")) = true →
      detectManager fs root = Manager.bun) ∧
    (∀ (fs : String → Bool) (root : String),
      fs (joinPath root "bun.lockb") = false → fs (joinPath root "bun.lock") = false →
      fs (joinPath root "pnpm-lock.yaml") = true →
      detectManager fs root = Manager.pnpm) ∧
    (∀ (fs : String → Bool) (root : String),
      fs (joinPath root "bun.lockb") = false → fs (joinPath root "bun.lock") = false →
      fs (joinPath root "pnpm-lock.yaml") = false → fs (joinPath root "yarn.lock") = true →
      detectManager fs root = Manager.yarn) ∧
    (∀ (fs : String → Bool) (root : String),
      fs (joinPath root "bun.lockb") = false → fs (joinPath root "bun.lock") = false →
      fs (joinPath root "pnpm-lock.yaml") = false → fs (joinPath root "yarn.lock") = false →
      detectManager fs root = Manager.npm) ∧
    detectManager (fun p => p == "/proj/pnpm-lock.yaml") "/proj" = Manager.pnpm ∧
    installCommand Manager.pnpm false ["left-pad"] = ["pnpm", "add", "left-pad"] := by
  refine ⟨?_, ?_, ?_, ?_, by decide, by decide⟩
  · intro fs root h; simp [detectManager, h]
  · intro fs root h1 h2 h3; simp [detectManager, h1, h2, h3]
  · intro fs root h1 h2 h3 h4; simp [detectManager, h1, h2, h3, h4]
  · intro fs root h1 h2 h3 h4; simp [detectManager, h1, h2, h3, h4]

theorem c7_manager_detection_witness :
    detectManager (fun _ => true) "r" = Manager.bun ∧
    detectManager (fun p => p == "/proj/pnpm-lock.yaml") "/proj" = Manager.pnpm :=
  ⟨c7_manager_detection.1 (fun _ => true) "r" (by decide),
   c7_manager_detection.2.1 (fun p => p == "/proj/pnpm-lock.yaml") "/proj"
     (by decide) (by decide) (by decide)⟩

/-- C8: when the package-manager subprocess exits non-zero, the Installer
is fatal for the whole invocation — it reports the captured output and
terminates the process with exit status 1 — and it has spawned exactly one
installation subprocess, so no internal retry happens. -/
theorem c8_installer_fatal (manager : Manager) (isDev : Bool)
    (packages : List String) (procExit : Int) (procOut procErr : String)
    (h : procExit ≠ 0) :
    (installPackages manager isDev packages procExit procOut procErr).2 =
      InstallResult.fatal 1 (if procOut ≠ "" then some procOut else none)
        (if procErr ≠ "" then some procErr else none) ∧
    (installPackages manager isDev packages procExit procOut procErr).1 =
      [installCommand manager isDev packages] := by
  simp [installPackages, h]

theorem c8_installer_fatal_witness :
    (installPackages Manager.pnpm false ["left-pad"] 2 "boom" "").2 =
      InstallResult.fatal 1 (some "boom") none ∧
    (installPackages Manager.pnpm false ["left-pad"] 2 "boom" "").1 =
      [installCommand Manager.pnpm false ["left-pad"]] := by
  have h := c8_installer_fatal Manager.pnpm false ["left-pad"] 2 "boom" "" (by decide)
  simpa using h

def c1Env : Nat → AttemptOutput := fun _ =>
  ⟨"Could not resolve \"left-pad\"", "", 1, 0, 2⟩

/-- C1 counterexample: with every attempt yielding the non-empty missing
set (no tailwind diagnostic) but the package installation subprocess
failing, the invocation stops after a single RUNNING cycle and one
Installer call — not 5 cycles and 4 calls as claimed, because the claim's
hypotheses say nothing about Installer success. -/
theorem c1_counterexample :
    needsTailwindSetup "Could not resolve \"left-pad\"" "" = false ∧
    (findMissingPackages "Could not resolve \"left-pad\"" "").isEmpty = false ∧
    runningAttempts (runCommand c1Env).1 = [1] ∧
    installCount (runCommand c1Env).1 = 1 ∧
    (runCommand c1Env).2 = 1 := by decide

theorem runFrom_exhaust (env : Nat → AttemptOutput)
    (htw : ∀ n, needsTailwindSetup (env n).stdout (env n).stderr = false)
    (hmiss : ∀ n, (findMissingPackages (env n).stdout (env n).stderr).isEmpty = false)
    (hinst : ∀ n, (env n).installExit = 0) :
    ∀ fuel attempt, attempt + fuel = MAX_ATTEMPTS + 1 → 1 ≤ attempt →
      runningAttempts (runFrom env attempt fuel).1 = List.range' attempt fuel ∧
      installCount (runFrom env attempt fuel).1 = fuel - 1 ∧
      (runFrom env attempt fuel).2 = 1 := by
  intro fuel
  induction fuel with
  | zero =>
    intro attempt h h1
    simp [runFrom, runningAttempts, installCount]
  | succ fuel ih =>
    intro attempt h h1
    by_cases hA : attempt = MAX_ATTEMPTS
    · have hfuel : fuel = 0 := by omega
      subst hA hfuel
      simp [runFrom, htw, hmiss, runningAttempts, installCount, List.range']
    · have hbeq : (attempt == MAX_ATTEMPTS) = false := by
        simp only [beq_eq_false_iff_ne, ne_eq]; exact hA
      have hnext := ih (attempt + 1) (by omega) (by omega)
      have hfpos : 1 ≤ fuel := by
        simp only [MAX_ATTEMPTS] at h hA ⊢; omega
      simp only [runFrom, htw attempt, hmiss attempt, hinst attempt, hbeq,
        Bool.false_eq_true, if_false, ne_eq, not_true_eq_false]
      simp only [runningAttempts, installCount, hnext.1, hnext.2.1, hnext.2.2]
      refine ⟨?_, by omega, trivial⟩
      rw [List.range'_succ]

/-- C1 (amended): when every attempt's output yields a non-empty
missing-package set, the tailwind diagnostic never appears, and every
Installer call succeeds, the orchestrator executes exactly 5 RUNNING
cycles, calls the Installer exactly 4 times, and terminates with failure
status 1; it never starts a 6th cycle, and the attempt counter is strictly
increasing and never exceeds `MAX_ATTEMPTS`. -/
theorem c1_budget_termination (env : Nat → AttemptOutput)
    (htw : ∀ n, needsTailwindSetup (env n).stdout (env n).stderr = false)
    (hmiss : ∀ n, (findMissingPackages (env n).stdout (env n).stderr).isEmpty = false)
    (hinst : ∀ n, (env n).installExit = 0) :
    runningAttempts (runCommand env).1 = [1, 2, 3, 4, 5] ∧
    installCount (runCommand env).1 = 4 ∧
    (runCommand env).2 = 1 ∧
    List.Chain' (· < ·) (runningAttempts (runCommand env).1) ∧
    ∀ a ∈ runningAttempts (runCommand env).1, a ≤ MAX_ATTEMPTS := by
  have h := runFrom_exhaust env htw hmiss hinst MAX_ATTEMPTS 1 (by decide) (by decide)
  have hr : runningAttempts (runCommand env).1 = [1, 2, 3, 4, 5] := by
    rw [runCommand, h.1]; decide
  have hc : installCount (runCommand env).1 = 4 := by
    rw [runCommand, h.2.1]; rfl
  have he : (runCommand env).2 = 1 := by rw [runCommand, h.2.2]
  refine ⟨hr, hc, he, ?_, by rw [hr]; decide⟩
  rw [hr]
  norm_num [List.chain'_cons, List.chain'_singleton]

def c1GoodEnv : Nat → AttemptOutput := fun _ =>
  ⟨"Could not resolve \"left-pad\"", "", 1, 0, 0⟩

theorem c1GoodEnv_no_tailwind :
    ∀ n, needsTailwindSetup (c1GoodEnv n).stdout (c1GoodEnv n).stderr = false := by
  intro n
  show needsTailwindSetup "Could not resolve \"left-pad\"" "" = false
  decide

theorem c1GoodEnv_missing :
    ∀ n, (findMissingPackages (c1GoodEnv n).stdout (c1GoodEnv n).stderr).isEmpty = false := by
  intro n
  show (findMissingPackages "Could not resolve \"left-pad\"" "").isEmpty = false
  decide

theorem c1_budget_termination_witness :
    runningAttempts (runCommand c1GoodEnv).1 = [1, 2, 3, 4, 5] ∧
    installCount (runCommand c1GoodEnv).1 = 4 ∧
    (runCommand c1GoodEnv).2 = 1 :=
  have h := c1_budget_termination c1GoodEnv c1GoodEnv_no_tailwind c1GoodEnv_missing
    (fun _ => rfl)
  ⟨h.1, h.2.1, h.2.2.1⟩

def c2Env : Nat → AttemptOutput := fun n =>
  if n = 1 then ⟨"Cannot find module \x27@primate/tailwind\x27", "", 0, 0, 0⟩
  else ⟨"", "", 0, 0, 0⟩

def c2EnvAll : Nat → AttemptOutput := fun _ =>
  ⟨"Cannot find module \x27@primate/tailwind\x27", "", 0, 0, 0⟩

/-- C2 counterexample: after the tailwind special remediation the loop
re-enters RUNNING at attempt 2, not at the same attempt number 1 — the
`continue` statement jumps to the `attempt++` update of the `for` loop —
and when the diagnostic persists on every attempt, the budget is consumed
and the run stops after 5 cycles with failure status, so the remediation
does consume attempts. -/
theorem c2_counterexample :
    needsTailwindSetup (c2Env 1).stdout (c2Env 1).stderr = true ∧
    runningAttempts (runCommand c2Env).1 = [1, 2] ∧
    runningAttempts (runCommand c2EnvAll).1 = [1, 2, 3, 4, 5] ∧
    (runCommand c2EnvAll).2 = 1 := by decide

/-- C2 (amended): whenever an attempt's output contains the tailwind
diagnostic, the orchestrator runs the special remediation (tailwind
scaffolding, then the package manager's full install) and re-enters
RUNNING at attempt `n + 1`, consuming an attempt from the budget exactly
as an ordinary remediation cycle does. -/
theorem c2_tailwind_consumes_attempt (env : Nat → AttemptOutput) (n fuel : Nat)
    (h : needsTailwindSetup (env n).stdout (env n).stderr = true) :
    runFrom env n (fuel + 1) =
      (Event.running n :: Event.tailwindSetup ::
        Event.fullInstall ((env n).fullInstallExit == 0) ::
          (runFrom env (n + 1) fuel).1,
       (runFrom env (n + 1) fuel).2) := by
  simp [runFrom, h]

theorem c2_tailwind_consumes_attempt_witness :
    runFrom c2Env 1 (4 + 1) =
      (Event.running 1 :: Event.tailwindSetup ::
        Event.fullInstall ((c2Env 1).fullInstallExit == 0) ::
          (runFrom c2Env 2 4).1,
       (runFrom c2Env 2 4).2) :=
  c2_tailwind_consumes_attempt c2Env 1 4 (by decide)

def c4Env : Nat → AttemptOutput := fun n =>
  if n = 1 then ⟨"Cannot find module \x27@primate/tailwind\x27", "", 0, 0, 0⟩
  else ⟨"", "", 7, 0, 0⟩

/-- C4 counterexample: on an invocation whose first attempt's classifier
result is empty but whose output carries the tailwind diagnostic, the
orchestrator does not stop after attempt 1 with the child's exit code 0 —
it remediates, runs a second cycle, and exits with that cycle's code 7. -/
theorem c4_counterexample :
    (findMissingPackages (c4Env 1).stdout (c4Env 1).stderr).isEmpty = true ∧
    (c4Env 1).code = 0 ∧
    runningAttempts (runCommand c4Env).1 = [1, 2] ∧
    (runCommand c4Env).2 = 7 := by decide

/-- C4 (amended): when the first attempt's classifier result is empty and
its output does not carry the tailwind diagnostic, the orchestrator
terminates immediately after attempt 1, propagating the child's own exit
code, with zero Installer calls. -/
theorem c4_success_short_circuit (env : Nat → AttemptOutput)
    (htw : needsTailwindSetup (env 1).stdout (env 1).stderr = false)
    (hmiss : (findMissingPackages (env 1).stdout (env 1).stderr).isEmpty = true) :
    runCommand env = ([Event.running 1, Event.exited (env 1).code], (env 1).code) ∧
    installCount (runCommand env).1 = 0 ∧
    runningAttempts (runCommand env).1 = [1] := by
  have key : runCommand env = ([Event.running 1, Event.exited (env 1).code], (env 1).code) := by
    rw [runCommand, show MAX_ATTEMPTS = 4 + 1 from rfl]
    simp [runFrom, htw, hmiss]
  exact ⟨key, by rw [key]; rfl, by rw [key]; rfl⟩

def c4GoodEnv : Nat → AttemptOutput := fun _ => ⟨"all good", "", 0, 0, 0⟩

theorem c4_success_short_circuit_witness :
    runCommand c4GoodEnv =
      ([Event.running 1, Event.exited (c4GoodEnv 1).code], (c4GoodEnv 1).code) ∧
    installCount (runCommand c4GoodEnv).1 = 0 ∧
    runningAttempts (runCommand c4GoodEnv).1 = [1] :=
  c4_success_short_circuit c4GoodEnv (by decide) (by decide)

theorem runFrom_code_congr (env env2 : Nat → AttemptOutput)
    (h : ∀ n, (env n).stdout = (env2 n).stdout ∧ (env n).stderr = (env2 n).stderr ∧
      (env n).code = (env2 n).code ∧ (env n).installExit = (env2 n).installExit) :
    ∀ fuel attempt, (runFrom env attempt fuel).2 = (runFrom env2 attempt fuel).2 := by
  intro fuel
  induction fuel with
  | zero => intro attempt; rfl
  | succ fuel ih =>
    intro attempt
    obtain ⟨h1, h2, h3, h4⟩ := h attempt
    simp only [runFrom, h1, h2, h3, h4]
    cases htw : needsTailwindSetup (env2 attempt).stdout (env2 attempt).stderr with
    | true => simp only [htw, if_true, ih]
    | false =>
      simp only [htw, Bool.false_eq_true, if_false]
      cases hie : (findMissingPackages (env2 attempt).stdout (env2 attempt).stderr).isEmpty with
      | true => simp [hie]
      | false =>
        simp only [hie, Bool.false_eq_true, if_false]
        cases hmax : (attempt == MAX_ATTEMPTS) with
        | true => simp [hmax]
        | false =>
          simp only [hmax, Bool.false_eq_true, if_false]
          by_cases hi : (env2 attempt).installExit ≠ 0
          · simp [hi]
          · simp [hi, ih]

/-- C10: a non-zero exit of the tailwind branch's full package-manager
install is not fatal — the invocation's final exit status never depends on
those exit codes, the failure is only reported (a `fullInstall false`
event) and the loop proceeds to the next RUNNING cycle — whereas an
ordinary Installer call that exits non-zero terminates the whole process
with status 1. -/
theorem c10_tailwind_install_nonfatal :
    (∀ env env2 : Nat → AttemptOutput,
      (∀ n, (env n).stdout = (env2 n).stdout ∧ (env n).stderr = (env2 n).stderr ∧
        (env n).code = (env2 n).code ∧ (env n).installExit = (env2 n).installExit) →
      (runCommand env).2 = (runCommand env2).2) ∧
    (∀ (env : Nat → AttemptOutput) (n fuel : Nat),
      needsTailwindSetup (env n).stdout (env n).stderr = true →
      (env n).fullInstallExit ≠ 0 →
      (runFrom env n (fuel + 1)).1 =
        Event.running n :: Event.tailwindSetup :: Event.fullInstall false ::
          (runFrom env (n + 1) fuel).1) ∧
    (∀ (env : Nat → AttemptOutput) (n fuel : Nat),
      needsTailwindSetup (env n).stdout (env n).stderr = false →
      (findMissingPackages (env n).stdout (env n).stderr).isEmpty = false →
      (n == MAX_ATTEMPTS) = false →
      (env n).installExit ≠ 0 →
      runFrom env n (fuel + 1) =
        ([Event.running n,
          Event.installCall (findMissingPackages (env n).stdout (env n).stderr),
          Event.exited 1], 1)) := by
  refine ⟨?_, ?_, ?_⟩
  · intro env env2 hcg
    exact runFrom_code_congr env env2 hcg MAX_ATTEMPTS 1
  · intro env n fuel h1 h2
    have hb : ((env n).fullInstallExit == 0) = false := beq_eq_false_iff_ne.mpr h2
    simp [runFrom, h1, hb]
  · intro env n fuel h1 h2 h3 h4
    simp [runFrom, h1, h2, h3, h4]

def c10EnvA : Nat → AttemptOutput := fun _ =>
  ⟨"Cannot find module \x27@primate/tailwind\x27", "", 0, 0, 0⟩

def c10EnvB : Nat → AttemptOutput := fun _ =>
  ⟨"Cannot find module \x27@primate/tailwind\x27", "", 0, 1, 0⟩

def c10EnvC : Nat → AttemptOutput := fun _ =>
  ⟨"Could not resolve \"left-pad\"", "", 1, 0, 2⟩

theorem c10_tailwind_install_nonfatal_witness :
    (runCommand c10EnvA).2 = (runCommand c10EnvB).2 ∧
    (runFrom c10EnvB 1 (3 + 1)).1 =
      Event.running 1 :: Event.tailwindSetup :: Event.fullInstall false ::
        (runFrom c10EnvB 2 3).1 ∧
    runFrom c10EnvC 1 (3 + 1) =
      ([Event.running 1,
        Event.installCall (findMissingPackages (c10EnvC 1).stdout (c10EnvC 1).stderr),
        Event.exited 1], 1) :=
  ⟨c10_tailwind_install_nonfatal.1 c10EnvA c10EnvB (fun _ => ⟨rfl, rfl, rfl, rfl⟩),
   c10_tailwind_install_nonfatal.2.1 c10EnvB 1 3 (by decide) (by decide),
   c10_tailwind_install_nonfatal.2.2 c10EnvC 1 3 (by decide) (by decide) (by decide)
     (by decide)⟩

theorem join_snoc (l : List String) (c : String) :
    String.join (l ++ [c]) = String.join l ++ c := by
  simp [String.join, List.foldl_append]

/- Drain-loop invariant: each buffer holds the concatenation of the chunks
   its loop has consumed; while no kill happened every consumed chunk was
   harmless and a finished loop has exhausted its stream; and a kill can
   only stem from a consumed chunk matching the armed fatal pattern. -/
def Consumed (cf : Bool) (outChunks errChunks : List String) (s : StreamState) : Prop :=
  ∃ preO preE,
    outChunks = preO ++ s.pOut ∧
    errChunks = preE ++ s.pErr ∧
    s.bufOut = String.join preO ∧
    s.bufErr = String.join preE ∧
    (s.killed = false →
      (∀ c ∈ preO, (cf && fatalMatch c) = false) ∧
      (∀ c ∈ preE, (cf && fatalMatch c) = false) ∧
      (s.doneOut = true → s.pOut = []) ∧
      (s.doneErr = true → s.pErr = [])) ∧
    (s.killed = true → ∃ c, (c ∈ preO ∨ c ∈ preE) ∧ (cf && fatalMatch c) = true)

theorem initState_consumed (cf : Bool) (outC errC : List String) :
    Consumed cf outC errC (initState outC errC) := by
  refine ⟨[], [], by simp [initState], by simp [initState], rfl, rfl, ?_, ?_⟩
  · intro _
    refine ⟨by simp, by simp, ?_, ?_⟩ <;> · intro h; simp [initState] at h
  · intro h; simp [initState] at h

theorem stepOut_consumed (cf : Bool) (outC errC : List String) (s : StreamState)
    (h : Consumed cf outC errC s) : Consumed cf outC errC (stepOut cf s) := by
  obtain ⟨preO, preE, hO, hE, hbO, hbE, hnk, hk⟩ := h
  cases hd : s.doneOut with
  | true =>
    have hstep : stepOut cf s = s := by simp [stepOut, hd]
    rw [hstep]
    exact ⟨preO, preE, hO, hE, hbO, hbE, hnk, hk⟩
  | false =>
    cases hp : s.pOut with
    | nil =>
      have hstep : stepOut cf s = { s with doneOut := true } := by
        simp [stepOut, hd, hp]
      rw [hstep]
      refine ⟨preO, preE, by simpa [hp] using hO, hE, hbO, hbE, ?_, hk⟩
      intro hkf
      obtain ⟨ha, hb, _, hde⟩ := hnk hkf
      exact ⟨ha, hb, fun _ => hp, hde⟩
    | cons c cs =>
      cases hcond : (cf && !s.killed && fatalMatch c) with
      | true =>
        have hstep : stepOut cf s =
            { s with bufOut := s.bufOut ++ c, pOut := cs, killed := true,
                     doneOut := true } := by
          simp only [stepOut, hd, Bool.false_eq_true, if_false, hp, hcond, if_true]
        rw [hstep]
        obtain ⟨⟨hcf, hnotk⟩, hfat⟩ := by
          simpa [Bool.and_eq_true] using hcond
        refine ⟨preO ++ [c], preE, ?_, hE, ?_, hbE, ?_, ?_⟩
        · rw [hO, hp]; simp
        · show s.bufOut ++ c = String.join (preO ++ [c])
          rw [hbO, join_snoc]
        · intro hfalse; simp at hfalse
        · intro _
          exact ⟨c, Or.inl (by simp), by simp [hcf, hfat]⟩
      | false =>
        have hstep : stepOut cf s = { s with bufOut := s.bufOut ++ c, pOut := cs } := by
          simp only [stepOut, hd, Bool.false_eq_true, if_false, hp, hcond]
        rw [hstep]
        refine ⟨preO ++ [c], preE, ?_, hE, ?_, hbE, ?_, ?_⟩
        · rw [hO, hp]; simp
        · show s.bufOut ++ c = String.join (preO ++ [c])
          rw [hbO, join_snoc]
        · intro hkf
          have hkx : s.killed = false := hkf
          have hcf2 : (cf && fatalMatch c) = false := by
            rw [hkx] at hcond
            simpa using hcond
          obtain ⟨ha, hb, _, hde⟩ := hnk hkf
          refine ⟨?_, hb, ?_, hde⟩
          · intro x hx
            rcases List.mem_append.mp hx with hx1 | hx2
            · exact ha x hx1
            · rw [List.mem_singleton.mp hx2]; exact hcf2
          · intro hcontra
            rw [hd] at hcontra
            cases hcontra
        · intro hkt
          obtain ⟨x, hmem, hfat⟩ := hk hkt
          refine ⟨x, ?_, hfat⟩
          rcases hmem with hm1 | hm2
          · exact Or.inl (List.mem_append_left _ hm1)
          · exact Or.inr hm2

theorem stepErr_consumed (cf : Bool) (outC errC : List String) (s : StreamState)
    (h : Consumed cf outC errC s) : Consumed cf outC errC (stepErr cf s) := by
  obtain ⟨preO, preE, hO, hE, hbO, hbE, hnk, hk⟩ := h
  cases hd : s.doneErr with
  | true =>
    have hstep : stepErr cf s = s := by simp [stepErr, hd]
    rw [hstep]
    exact ⟨preO, preE, hO, hE, hbO, hbE, hnk, hk⟩
  | false =>
    cases hp : s.pErr with
    | nil =>
      have hstep : stepErr cf s = { s with doneErr := true } := by
        simp [stepErr, hd, hp]
      rw [hstep]
      refine ⟨preO, preE, hO, by simpa [hp] using hE, hbO, hbE, ?_, hk⟩
      intro hkf
      obtain ⟨ha, hb, hdo, _⟩ := hnk hkf
      exact ⟨ha, hb, hdo, fun _ => hp⟩
    | cons c cs =>
      cases hcond : (cf && !s.killed && fatalMatch c) with
      | true =>
        have hstep : stepErr cf s =
            { s with bufErr := s.bufErr ++ c, pErr := cs, killed := true,
                     doneErr := true } := by
          simp only [stepErr, hd, Bool.false_eq_true, if_false, hp, hcond, if_true]
        rw [hstep]
        obtain ⟨⟨hcf, hnotk⟩, hfat⟩ := by
          simpa [Bool.and_eq_true] using hcond
        refine ⟨preO, preE ++ [c], hO, ?_, hbO, ?_, ?_, ?_⟩
        · rw [hE, hp]; simp
        · show s.bufErr ++ c = String.join (preE ++ [c])
          rw [hbE, join_snoc]
        · intro hfalse; simp at hfalse
        · intro _
          exact ⟨c, Or.inr (by simp), by simp [hcf, hfat]⟩
      | false =>
        have hstep : stepErr cf s = { s with bufErr := s.bufErr ++ c, pErr := cs } := by
          simp only [stepErr, hd, Bool.false_eq_true, if_false, hp, hcond]
        rw [hstep]
        refine ⟨preO, preE ++ [c], hO, ?_, hbO, ?_, ?_, ?_⟩
        · rw [hE, hp]; simp
        · show s.bufErr ++ c = String.join (preE ++ [c])
          rw [hbE, join_snoc]
        · intro hkf
          have hkx : s.killed = false := hkf
          have hcf2 : (cf && fatalMatch c) = false := by
            rw [hkx] at hcond
            simpa using hcond
          obtain ⟨ha, hb, hdo, _⟩ := hnk hkf
          refine ⟨ha, ?_, hdo, ?_⟩
          · intro x hx
            rcases List.mem_append.mp hx with hx1 | hx2
            · exact hb x hx1
            · rw [List.mem_singleton.mp hx2]; exact hcf2
          · intro hcontra
            rw [hd] at hcontra
            cases hcontra
        · intro hkt
          obtain ⟨x, hmem, hfat⟩ := hk hkt
          refine ⟨x, ?_, hfat⟩
          rcases hmem with hm1 | hm2
          · exact Or.inl hm1
          · exact Or.inr (List.mem_append_left _ hm2)

theorem runStreams_consumed (cf : Bool) (outC errC : List String) :
    ∀ (sched : List Bool) (s : StreamState), Consumed cf outC errC s →
      Consumed cf outC errC (runStreams cf s sched) := by
  intro sched
  induction sched with
  | nil => intro s h; exact h
  | cons w ws ih =>
    intro s h
    cases w with
    | true =>
      show Consumed cf outC errC (runStreams cf (stepOut cf s) ws)
      exact ih _ (stepOut_consumed cf outC errC s h)
    | false =>
      show Consumed cf outC errC (runStreams cf (stepErr cf s) ws)
      exact ih _ (stepErr_consumed cf outC errC s h)

/-- C9: for any interleaving of the two drain loops under which the
invocation returns (the source awaits both loops before returning), and
with no chunk triggering the armed early-termination check, both
accumulation buffers hold exactly the concatenation of the chunks their
channel delivered — no truncation, no duplication — and no kill happened. -/
theorem c9_concurrent_drain (cf : Bool) (outC errC : List String)
    (sched : List Bool) (reported : Option Int) (res : RunResult)
    (hrun : runPrimate cf outC errC sched reported = some res)
    (hsafe : ∀ c ∈ outC ++ errC, (cf && fatalMatch c) = false) :
    res.stdout = String.join outC ∧ res.stderr = String.join errC ∧
    res.killed = false := by
  have hinv := runStreams_consumed cf outC errC sched _ (initState_consumed cf outC errC)
  unfold runPrimate at hrun
  set s := runStreams cf (initState outC errC) sched with hs
  obtain ⟨preO, preE, hO, hE, hbO, hbE, hnk, hk⟩ := hinv
  cases hdone : (s.doneOut && s.doneErr) with
  | false =>
    simp only [hdone, Bool.false_eq_true, if_false] at hrun
    exact Option.noConfusion hrun
  | true =>
    simp only [hdone, if_true, Option.some.injEq] at hrun
    have hsplit : s.doneOut = true ∧ s.doneErr = true := by simpa using hdone
    obtain ⟨hdo, hde⟩ := hsplit
    cases hkill : s.killed with
    | true =>
      obtain ⟨c, hmem, hfat⟩ := hk hkill
      have hc : c ∈ outC ++ errC := by
        rcases hmem with hm | hm
        · exact List.mem_append_left _ (hO ▸ List.mem_append_left _ hm)
        · exact List.mem_append_right _ (hE ▸ List.mem_append_left _ hm)
      rw [hsafe c hc] at hfat
      cases hfat
    | false =>
      obtain ⟨_, _, hpo, hpe⟩ := hnk hkill
      have hO2 : preO = outC := by rw [hO, hpo hdo, List.append_nil]
      have hE2 : preE = errC := by rw [hE, hpe hde, List.append_nil]
      rw [← hrun]
      exact ⟨by rw [← hO2]; exact hbO, by rw [← hE2]; exact hbE, hkill⟩

def c9Sched : List Bool := [true, false, true, false, true, false]

theorem c9_concurrent_drain_witness :
    runPrimate false ["ab", "cd"] ["uvw", "z"] c9Sched (some 0) =
      some ⟨"abcd", "uvwz", 0, false⟩ ∧
    (⟨"abcd", "uvwz", 0, false⟩ : RunResult).stdout = String.join ["ab", "cd"] ∧
    (⟨"abcd", "uvwz", 0, false⟩ : RunResult).stderr = String.join ["uvw", "z"] ∧
    (⟨"abcd", "uvwz", 0, false⟩ : RunResult).killed = false :=
  have h := c9_concurrent_drain false ["ab", "cd"] ["uvw", "z"] c9Sched (some 0)
    ⟨"abcd", "uvwz", 0, false⟩ (by decide) (by decide)
  ⟨by decide, h.1, h.2.1, h.2.2⟩

/-- C5: with the early-termination check armed, if some delivered chunk
matches the fatal pattern then any completed invocation has killed the
child, returns exit code `reported ?? 1` (the sentinel 1 when the killed
process reported none), and returns buffers that are concatenations of
chunk prefixes of each stream; moreover the drain loop that consumes a
matching chunk (process not yet killed) appends that chunk to its buffer,
sets the kill flag, and stops reading its stream at once, leaving the
remaining chunks unread. -/
theorem c5_early_termination :
    (∀ (outC errC : List String) (sched : List Bool) (reported : Option Int)
        (res : RunResult),
      runPrimate true outC errC sched reported = some res →
      (∃ c, (c ∈ outC ∨ c ∈ errC) ∧ fatalMatch c = true) →
      res.killed = true ∧ res.code = reported.getD 1 ∧
      (∃ preO rest, outC = preO ++ rest ∧ res.stdout = String.join preO) ∧
      (∃ preE rest, errC = preE ++ rest ∧ res.stderr = String.join preE)) ∧
    (∀ (s : StreamState) (c : String) (cs : List String),
      s.killed = false → s.doneOut = false → s.pOut = c :: cs → fatalMatch c = true →
      stepOut true s =
        { s with bufOut := s.bufOut ++ c, pOut := cs, killed := true,
                 doneOut := true }) := by
  constructor
  · intro outC errC sched reported res hrun hfatal
    have hinv := runStreams_consumed true outC errC sched _
      (initState_consumed true outC errC)
    unfold runPrimate at hrun
    set s := runStreams true (initState outC errC) sched with hs
    obtain ⟨preO, preE, hO, hE, hbO, hbE, hnk, hk⟩ := hinv
    cases hdone : (s.doneOut && s.doneErr) with
    | false =>
      simp only [hdone, Bool.false_eq_true, if_false] at hrun
      exact Option.noConfusion hrun
    | true =>
      simp only [hdone, if_true, Option.some.injEq] at hrun
      have hsplit : s.doneOut = true ∧ s.doneErr = true := by simpa using hdone
      obtain ⟨hdo, hde⟩ := hsplit
      have hkill : s.killed = true := by
        cases hkill0 : s.killed with
        | true => rfl
        | false =>
          obtain ⟨ha, hb, hpo, hpe⟩ := hnk hkill0
          have hO2 : preO = outC := by rw [hO, hpo hdo, List.append_nil]
          have hE2 : preE = errC := by rw [hE, hpe hde, List.append_nil]
          obtain ⟨c, hmem, hfat⟩ := hfatal
          rcases hmem with hm | hm
          · have := ha c (hO2 ▸ hm)
            rw [hfat] at this
            simp at this
          · have := hb c (hE2 ▸ hm)
            rw [hfat] at this
            simp at this
      refine ⟨?_, ?_, ?_, ?_⟩
      · rw [← hrun]; exact hkill
      · rw [← hrun]; simp [hkill]
      · exact ⟨preO, s.pOut, hO, by rw [← hrun]; exact hbO⟩
      · exact ⟨preE, s.pErr, hE, by rw [← hrun]; exact hbE⟩
  · intro s c cs hkill hdone hp hfat
    simp [stepOut, hdone, hp, hkill, hfat]

def c5Chunk : String := "[ERROR] Could not resolve \"left-pad\""

theorem c5_early_termination_witness :
    ((⟨c5Chunk, "tail", 1, true⟩ : RunResult).killed = true ∧
      (⟨c5Chunk, "tail", 1, true⟩ : RunResult).code = (none : Option Int).getD 1) ∧
    stepOut true ⟨[c5Chunk], ["tail"], "", "", false, false, false⟩ =
      ⟨[], ["tail"], c5Chunk, "", true, true, false⟩ :=
  have h := c5_early_termination.1 [c5Chunk] ["tail"] [true, false, false] none
    ⟨c5Chunk, "tail", 1, true⟩ (by decide)
    ⟨c5Chunk, Or.inl (by decide), by decide⟩
  have h2 := c5_early_termination.2 ⟨[c5Chunk], ["tail"], "", "", false, false, false⟩
    c5Chunk [] rfl rfl rfl (by decide)
  ⟨⟨h.1, h.2.1⟩, h2⟩
